import Mathlib

/-!
# digital-dash-commons: the logging facade and the response envelope

A shallow embedding of `utils/logging.go` (the `Logger` facade over the zap
logging engine) and `rest/response.go` (the `Response` envelope), followed by
the properties of the specification checked against it.

The facade delegates every operation to `go.uber.org/zap`, and the envelope is
serialised by `encoding/json`. Neither library is part of the repository, so
the parts of them the facade calls are modelled here, each under a doc comment
that says so. What belongs to the outside world (the file system, the text
formatting routines of `fmt`, the byte case folding) is a field of `Env`, and
every theorem holds for all environments.
-/

namespace DigitalDash

/-! ## Go runtime -/

/-- A Go `error` value, identified with its message. -/
abbrev GoError := String

/-- How a Go call ends: it returns a value, it panics with a value (which a
deferred `recover` of a caller may intercept), or the process exits. -/
inductive Outcome (α : Type) where
  | returned (a : α)
  | panicked (v : String)
  | exited (code : Nat)
  deriving DecidableEq, Repr

/-- A dynamically typed Go value, as passed for `interface{}` / `any`. The nil
interface is `none` of `Option Value` where it can occur. -/
inductive Value where
  | str (s : String)
  | int (n : Int)
  | bool (b : Bool)
  deriving DecidableEq, Repr

/-- The message of the runtime panic raised by dereferencing a nil pointer. -/
def nilDereference : String :=
  "runtime error: invalid memory address or nil pointer dereference"

/-! ## The zap engine -/

namespace zapcore

/-- Modelled from the spec: the severity levels of the zap engine (library
code, not in the repository), "debug, info, warn, error, panic/dpanic, fatal". -/
inductive Level where
  | DebugLevel
  | InfoLevel
  | WarnLevel
  | ErrorLevel
  | DPanicLevel
  | PanicLevel
  | FatalLevel
  deriving DecidableEq, Repr

/-- Modelled from the spec: the numeric rank of a level, giving the order
debug < info < warn < error < dpanic < panic < fatal (zap numbers them -1 to 5). -/
def Level.toInt : Level → Int
  | .DebugLevel => -1
  | .InfoLevel => 0
  | .WarnLevel => 1
  | .ErrorLevel => 2
  | .DPanicLevel => 3
  | .PanicLevel => 4
  | .FatalLevel => 5

/-- Modelled from the spec: "records below the configured threshold are
suppressed": a threshold `l` enables a record of level `lvl` when `lvl >= l`. -/
def Level.Enabled (l lvl : Level) : Bool :=
  decide (l.toInt ≤ lvl.toInt)

/-- Modelled from the spec: the fixed level vocabulary of the engine. zap
accepts each name in lower and in upper case, and the empty text as info. -/
def Level.unmarshalText (text : String) : Option Level :=
  if text = "debug" ∨ text = "DEBUG" then some .DebugLevel
  else if text = "info" ∨ text = "INFO" ∨ text = "" then some .InfoLevel
  else if text = "warn" ∨ text = "WARN" then some .WarnLevel
  else if text = "error" ∨ text = "ERROR" then some .ErrorLevel
  else if text = "dpanic" ∨ text = "DPANIC" then some .DPanicLevel
  else if text = "panic" ∨ text = "PANIC" then some .PanicLevel
  else if text = "fatal" ∨ text = "FATAL" then some .FatalLevel
  else none

/-- Modelled from the spec: `(*Level).UnmarshalText` of the engine. The text is
tried as written, then case folded by `toLower` (Go's `bytes.ToLower`); when
neither is in the vocabulary the receiver `l` is left as it was and an error is
returned. The result is the new value of the receiver and the error. -/
def Level.UnmarshalText (toLower : String → String) (l : Level) (text : String) :
    Level × Option GoError :=
  match Level.unmarshalText text with
  | some v => (v, none)
  | none =>
    match Level.unmarshalText (toLower text) with
    | some v => (v, none)
    | none => (l, some ("unrecognized level: " ++ text))

/-- The encoder presets of the engine, `zap.NewProductionEncoderConfig()` and
`zap.NewDevelopmentEncoderConfig()`; only which one was chosen is kept. -/
inductive EncoderConfig where
  | production
  | development
  deriving DecidableEq, Repr

/-- A structured field attached to a record: a key and a value. -/
structure Field where
  Key : String
  Val : Value
  deriving DecidableEq, Repr

/-- One record as the engine writes it: its severity, its message, its
structured fields, and the encoding and sinks it is written with. -/
structure Entry where
  Level : Level
  Message : String
  Fields : List Field
  Encoding : String
  OutputPaths : List String
  deriving DecidableEq, Repr

end zapcore

/-- The outside world of the engine. -/
structure Env where
  /-- Go's `bytes.ToLower`. -/
  ToLower : String → String
  /-- Go's `fmt.Sprint`. -/
  Sprint : List Value → String
  /-- Go's `fmt.Sprintf`. -/
  Sprintf : String → List Value → String
  /-- The engine's pairing of loosely typed key/value arguments into fields. -/
  sweetenFields : List Value → List zapcore.Field
  /-- Encoder names registered with the engine besides the built-in ones. -/
  encoders : List String
  /-- Opening a sink that is not a standard stream: the error, if it fails. -/
  OpenFile : String → Option GoError
  /-- Flushing the sinks of the given paths: the error, if it fails. -/
  SyncSinks : List String → Option GoError

namespace zap

open zapcore

/-- The fields of `zap.Config` that `NewLogger` sets. -/
structure Config where
  Level : Level
  Development : Bool
  Encoding : String
  EncoderConfig : EncoderConfig
  OutputPaths : List String
  ErrorOutputPaths : List String
  deriving DecidableEq, Repr

/-- The engine's logger: what `Config.Build` makes of a configuration, and the
fields that `With` has attached so far. -/
structure Logger where
  level : Level
  development : Bool
  encoding : String
  encoderConfig : EncoderConfig
  outputPaths : List String
  errorOutputPaths : List String
  context : List Field
  deriving DecidableEq, Repr

/-- The engine's `SugaredLogger`, a wrapper of its `Logger`. -/
structure SugaredLogger where
  base : Logger
  deriving DecidableEq, Repr

/-- The error of the engine for an empty encoder name. -/
def errNoEncoderNameSpecified : GoError := "no encoder name specified"

/-- Model of the engine's encoder lookup (library code): the empty name is
rejected first, then a name that is neither built in ("console", "json") nor
registered. -/
def newEncoder (env : Env) (name : String) : Option GoError :=
  if name = "" then some errNoEncoderNameSpecified
  else if name = "console" ∨ name = "json" ∨ name ∈ env.encoders then none
  else some ("no encoder registered for name " ++ name)

/-- Model of opening one sink (library code): the standard streams always
open, any other path is opened through the file system. -/
def openSink (env : Env) (path : String) : Option GoError :=
  if path = "stdout" ∨ path = "stderr" then none
  else (env.OpenFile path).map (fun e => "open sink " ++ path ++ ": " ++ e)

/-- Model of the engine's `Open(paths...)` (library code): every path is
opened, and the errors of those that fail are joined into one. -/
def Open (env : Env) (paths : List String) : Option GoError :=
  match paths.filterMap (openSink env) with
  | [] => none
  | errs => some ("; ".intercalate errs)

/-- Modelled from the spec: `Config.Build`, "builds the underlying engine";
"engine construction fails (e.g., invalid output sink path)". The encoder is
looked up, then the output sinks and the error sinks are opened. -/
def Config.Build (env : Env) (cfg : Config) : Except GoError Logger :=
  match newEncoder env cfg.Encoding with
  | some err => .error err
  | none =>
    match Open env cfg.OutputPaths with
    | some err => .error err
    | none =>
      match Open env cfg.ErrorOutputPaths with
      | some err => .error err
      | none =>
        .ok { level := cfg.Level
              development := cfg.Development
              encoding := cfg.Encoding
              encoderConfig := cfg.EncoderConfig
              outputPaths := cfg.OutputPaths
              errorOutputPaths := cfg.ErrorOutputPaths
              context := [] }

/-- The engine's `(*Logger).Sugar`. -/
def Logger.Sugar (log : Logger) : SugaredLogger :=
  { base := log }

/-- Modelled from the spec: `(*Logger).With`, "returns a new Logger instance
that emits all future records with those fields attached in addition to any
inherited from a prior With chain. Does not mutate the receiver": the result is
a copy of the receiver with the fields appended to its context. -/
def Logger.With (log : Logger) (fields : List Field) : Logger :=
  { log with context := log.context ++ fields }

/-- The engine's `(*SugaredLogger).With`: the arguments are paired into fields
and the base logger is derived with them. -/
def SugaredLogger.With (env : Env) (s : SugaredLogger) (args : List Value) :
    SugaredLogger :=
  { base := s.base.With (env.sweetenFields args) }

/-- Model of the engine's `getMessage` (library code): the message of a call
from its template and arguments. -/
def getMessage (env : Env) (template : String) (fmtArgs : List Value) : String :=
  if fmtArgs.length = 0 then template
  else if template ≠ "" then env.Sprintf template fmtArgs
  else
    match fmtArgs with
    | [.str s] => s
    | _ => env.Sprint fmtArgs

/-- What a logging call did: the records it wrote, and how it ended. -/
structure Call where
  records : List Entry
  outcome : Outcome Unit
  deriving DecidableEq, Repr

/-- Modelled from the spec: the engine's `(*SugaredLogger).log`. A record
"below the configured threshold" is suppressed, otherwise the call "emits one
log record at the corresponding severity"; a panic-level call "additionally
raises a control-flow panic condition after emitting the record", a fatal-level
call "additionally terminates the process" (zap does both also when the record
itself is suppressed, and panics at dpanic level in development mode). -/
def SugaredLogger.log (env : Env) (s : SugaredLogger) (lvl : Level)
    (template : String) (fmtArgs : List Value) : Call :=
  if lvl.toInt < Level.DPanicLevel.toInt ∧ s.base.level.Enabled lvl = false then
    { records := [], outcome := .returned () }
  else
    let msg := getMessage env template fmtArgs
    let written : List Entry :=
      if s.base.level.Enabled lvl then
        [{ Level := lvl
           Message := msg
           Fields := s.base.context
           Encoding := s.base.encoding
           OutputPaths := s.base.outputPaths }]
      else []
    match lvl with
    | .PanicLevel => { records := written, outcome := .panicked msg }
    | .FatalLevel => { records := written, outcome := .exited 1 }
    | .DPanicLevel =>
      { records := written
        outcome := if s.base.development then .panicked msg else .returned () }
    | _ => { records := written, outcome := .returned () }

/-- The engine's `(*SugaredLogger).Debug`. -/
def SugaredLogger.Debug (env : Env) (s : SugaredLogger) (args : List Value) : Call :=
  s.log env .DebugLevel "" args

/-- The engine's `(*SugaredLogger).Info`. -/
def SugaredLogger.Info (env : Env) (s : SugaredLogger) (args : List Value) : Call :=
  s.log env .InfoLevel "" args

/-- The engine's `(*SugaredLogger).Warn`. -/
def SugaredLogger.Warn (env : Env) (s : SugaredLogger) (args : List Value) : Call :=
  s.log env .WarnLevel "" args

/-- The engine's `(*SugaredLogger).Error`. -/
def SugaredLogger.Error (env : Env) (s : SugaredLogger) (args : List Value) : Call :=
  s.log env .ErrorLevel "" args

/-- The engine's `(*SugaredLogger).Panic`. -/
def SugaredLogger.Panic (env : Env) (s : SugaredLogger) (args : List Value) : Call :=
  s.log env .PanicLevel "" args

/-- The engine's `(*SugaredLogger).Fatal`. -/
def SugaredLogger.Fatal (env : Env) (s : SugaredLogger) (args : List Value) : Call :=
  s.log env .FatalLevel "" args

/-- The engine's `(*SugaredLogger).Debugf`. -/
def SugaredLogger.Debugf (env : Env) (s : SugaredLogger) (template : String)
    (args : List Value) : Call :=
  s.log env .DebugLevel template args

/-- The engine's `(*SugaredLogger).Infof`. -/
def SugaredLogger.Infof (env : Env) (s : SugaredLogger) (template : String)
    (args : List Value) : Call :=
  s.log env .InfoLevel template args

/-- The engine's `(*SugaredLogger).Warnf`. -/
def SugaredLogger.Warnf (env : Env) (s : SugaredLogger) (template : String)
    (args : List Value) : Call :=
  s.log env .WarnLevel template args

/-- The engine's `(*SugaredLogger).Errorf`. -/
def SugaredLogger.Errorf (env : Env) (s : SugaredLogger) (template : String)
    (args : List Value) : Call :=
  s.log env .ErrorLevel template args

/-- The engine's `(*SugaredLogger).Panicf`. -/
def SugaredLogger.Panicf (env : Env) (s : SugaredLogger) (template : String)
    (args : List Value) : Call :=
  s.log env .PanicLevel template args

/-- The engine's `(*SugaredLogger).Fatalf`. -/
def SugaredLogger.Fatalf (env : Env) (s : SugaredLogger) (template : String)
    (args : List Value) : Call :=
  s.log env .FatalLevel template args

/-- The engine's `(*SugaredLogger).Sync`: the sinks of the output paths are
flushed, and the error of the flush, if any, is returned. -/
def SugaredLogger.Sync (env : Env) (s : SugaredLogger) : Option GoError :=
  env.SyncSinks s.base.outputPaths

end zap

/-! ## Memory -/

/-- The engine loggers allocated so far. A `*zap.SugaredLogger` is an index
into this list; an index past its end is a pointer to nothing. -/
abbrev Heap := List zap.SugaredLogger

/-- Allocation of a new engine logger: the extended heap and the pointer. -/
def Heap.alloc (h : Heap) (s : zap.SugaredLogger) : Heap × Nat :=
  (h ++ [s], h.length)

/-! ## utils/logging.go -/

namespace utils

/-- The struct `Logger`: it embeds a `*zap.SugaredLogger`. -/
structure Logger where
  SugaredLogger : Nat
  deriving DecidableEq, Repr

/-- The struct `Config`. A nil slice and an empty slice are both `[]`. -/
structure Config where
  Level : String
  Development : Bool
  Encoding : String
  OutputPaths : List String
  ErrorOutputPaths : List String
  deriving DecidableEq, Repr

/-- The function `defaultConfig`. -/
def defaultConfig : Config :=
  { Level := "info"
    Development := false
    Encoding := "json"
    OutputPaths := ["stdout"]
    ErrorOutputPaths := ["stderr"] }

/-- The local `cfg` of `NewLogger`: the first of the variadic `configs` when
there is one, the default configuration otherwise. -/
def selectConfig (configs : List Config) : Config :=
  if h : configs.length > 0 then configs[0] else defaultConfig

/-- The local `zapLevel` of `NewLogger` after the level text has been parsed:
it starts as info, is overwritten by `UnmarshalText`, and is set back to info
when that returned an error. -/
def parseLevel (env : Env) (cfg : Config) : zapcore.Level :=
  let zapLevel := zapcore.Level.InfoLevel
  let (zapLevel, err) := zapcore.Level.UnmarshalText env.ToLower zapLevel cfg.Level
  if err ≠ none then zapcore.Level.InfoLevel else zapLevel

/-- The local `config` of `NewLogger`: the `zap.Config` literal it builds. -/
def zapConfig (env : Env) (cfg : Config) : zap.Config :=
  let encoderConfig :=
    if cfg.Development then zapcore.EncoderConfig.development
    else zapcore.EncoderConfig.production
  { Level := parseLevel env cfg
    Development := cfg.Development
    Encoding := cfg.Encoding
    EncoderConfig := encoderConfig
    OutputPaths := cfg.OutputPaths
    ErrorOutputPaths := cfg.ErrorOutputPaths }

/-- The function `NewLogger`, called with the variadic `configs` in the heap
`h`. A build error of the engine is raised as a panic carrying that error;
otherwise the sugared engine logger is allocated and wrapped. -/
def NewLogger (env : Env) (h : Heap) (configs : List Config) :
    Outcome (Heap × Logger) :=
  let cfg := selectConfig configs
  let config := zapConfig env cfg
  match config.Build env with
  | .error err => .panicked err
  | .ok baseLogger =>
    let (h1, sugar) := h.alloc baseLogger.Sugar
    .returned (h1, { SugaredLogger := sugar })

/-- A method of the facade that logs: the embedded pointer is dereferenced and
the call is passed on to the engine logger it points to. -/
def Logger.forward (h : Heap) (l : Logger) (f : zap.SugaredLogger → zap.Call) :
    zap.Call :=
  match h[l.SugaredLogger]? with
  | none => { records := [], outcome := .panicked nilDereference }
  | some s => f s

/-- The method `Debug`. -/
def Logger.Debug (env : Env) (h : Heap) (l : Logger) (args : List Value) : zap.Call :=
  l.forward h (fun s => s.Debug env args)

/-- The method `Info`. -/
def Logger.Info (env : Env) (h : Heap) (l : Logger) (args : List Value) : zap.Call :=
  l.forward h (fun s => s.Info env args)

/-- The method `Warn`. -/
def Logger.Warn (env : Env) (h : Heap) (l : Logger) (args : List Value) : zap.Call :=
  l.forward h (fun s => s.Warn env args)

/-- The method `Error`. -/
def Logger.Error (env : Env) (h : Heap) (l : Logger) (args : List Value) : zap.Call :=
  l.forward h (fun s => s.Error env args)

/-- The method `Panic`. -/
def Logger.Panic (env : Env) (h : Heap) (l : Logger) (args : List Value) : zap.Call :=
  l.forward h (fun s => s.Panic env args)

/-- The method `Fatal`. -/
def Logger.Fatal (env : Env) (h : Heap) (l : Logger) (args : List Value) : zap.Call :=
  l.forward h (fun s => s.Fatal env args)

/-- The method `Debugf`. -/
def Logger.Debugf (env : Env) (h : Heap) (l : Logger) (template : String)
    (args : List Value) : zap.Call :=
  l.forward h (fun s => s.Debugf env template args)

/-- The method `Infof`. -/
def Logger.Infof (env : Env) (h : Heap) (l : Logger) (template : String)
    (args : List Value) : zap.Call :=
  l.forward h (fun s => s.Infof env template args)

/-- The method `Warnf`. -/
def Logger.Warnf (env : Env) (h : Heap) (l : Logger) (template : String)
    (args : List Value) : zap.Call :=
  l.forward h (fun s => s.Warnf env template args)

/-- The method `Errorf`. -/
def Logger.Errorf (env : Env) (h : Heap) (l : Logger) (template : String)
    (args : List Value) : zap.Call :=
  l.forward h (fun s => s.Errorf env template args)

/-- The method `Panicf`. -/
def Logger.Panicf (env : Env) (h : Heap) (l : Logger) (template : String)
    (args : List Value) : zap.Call :=
  l.forward h (fun s => s.Panicf env template args)

/-- The method `Fatalf`. -/
def Logger.Fatalf (env : Env) (h : Heap) (l : Logger) (template : String)
    (args : List Value) : zap.Call :=
  l.forward h (fun s => s.Fatalf env template args)

/-- The method `With`: the engine logger derived from the receiver is
allocated and wrapped in a new `Logger`; the heap is otherwise left alone. -/
def Logger.With (env : Env) (h : Heap) (l : Logger) (args : List Value) :
    Heap × Outcome Logger :=
  match h[l.SugaredLogger]? with
  | none => (h, .panicked nilDereference)
  | some s =>
    let (h1, p) := h.alloc (s.With env args)
    (h1, .returned { SugaredLogger := p })

/-- The method `Sync`: the result of the engine logger's `Sync`, as it is. -/
def Logger.Sync (env : Env) (h : Heap) (l : Logger) : Outcome (Option GoError) :=
  match h[l.SugaredLogger]? with
  | none => .panicked nilDereference
  | some s => .returned (s.Sync env)

/-- The methods of `LoggerInterface` that log. -/
inductive Method where
  | Debug | Info | Warn | Error | Panic | Fatal
  | Debugf | Infof | Warnf | Errorf | Panicf | Fatalf
  deriving DecidableEq, Repr

/-- The severity a logging method is named after. -/
def Method.severity : Method → zapcore.Level
  | .Debug | .Debugf => .DebugLevel
  | .Info | .Infof => .InfoLevel
  | .Warn | .Warnf => .WarnLevel
  | .Error | .Errorf => .ErrorLevel
  | .Panic | .Panicf => .PanicLevel
  | .Fatal | .Fatalf => .FatalLevel

/-- The template a logging method passes to the engine: its own for the
formatted variants, the empty one otherwise. -/
def Method.template (m : Method) (template : String) : String :=
  match m with
  | .Debug | .Info | .Warn | .Error | .Panic | .Fatal => ""
  | _ => template

/-- A call of the logging method `m` on `l`; `template` is used by the
formatted variants only. -/
def Logger.invoke (env : Env) (h : Heap) (l : Logger) (m : Method)
    (template : String) (args : List Value) : zap.Call :=
  match m with
  | .Debug => l.Debug env h args
  | .Info => l.Info env h args
  | .Warn => l.Warn env h args
  | .Error => l.Error env h args
  | .Panic => l.Panic env h args
  | .Fatal => l.Fatal env h args
  | .Debugf => l.Debugf env h template args
  | .Infof => l.Infof env h template args
  | .Warnf => l.Warnf env h template args
  | .Errorf => l.Errorf env h template args
  | .Panicf => l.Panicf env h template args
  | .Fatalf => l.Fatalf env h template args

/-- The zero value of `Config`. -/
def zeroConfig : Config :=
  { Level := ""
    Development := false
    Encoding := ""
    OutputPaths := []
    ErrorOutputPaths := [] }

end utils

/-! ## rest/response.go -/

namespace json

/-- A JSON value, as far as a `Response` produces one. The members of the
object of a string map are kept in the order of the map model; `raw` is the
JSON text of a value whose structure is not modelled. -/
inductive JSON where
  | null
  | number (n : Int)
  | real (q : ℚ)
  | string (s : String)
  | bool (b : Bool)
  | object (members : List (String × String))
  | raw (text : String)
  deriving DecidableEq, Repr

/-- The encoding of a string, an integer or a boolean. -/
def marshalValue : Value → JSON
  | .str s => .string s
  | .int n => .number n
  | .bool b => .bool b

/-- A non-nil value of the Go type `any`, by what `encoding/json` makes of it.
Strings, integers, booleans and finite floats encode as themselves and a typed
nil pointer as null. A float that is NaN or infinite, a channel and a function
cannot be encoded. Every other value (a slice, a map, a struct, a type with its
own `MarshalJSON`) is `encoded`, given by its JSON text, when the encoder
accepts it, and `failing`, given by the error, when it does not. -/
inductive Any where
  | val (v : Value)
  | float (q : ℚ)
  | nan
  | inf (negative : Bool)
  | nilPointer
  | chan (goType : String)
  | func (goType : String)
  | encoded (text : String)
  | failing (err : GoError)
  deriving DecidableEq, Repr

/-- Model of the encoder of `encoding/json` on a value of type `any` (library
code): the JSON value, or the error for a value it cannot encode. -/
def marshalAny : Any → Except GoError JSON
  | .val v => .ok (marshalValue v)
  | .float q => .ok (.real q)
  | .nan => .error "json: unsupported value: NaN"
  | .inf false => .error "json: unsupported value: +Inf"
  | .inf true => .error "json: unsupported value: -Inf"
  | .nilPointer => .ok .null
  | .chan goType => .error ("json: unsupported type: " ++ goType)
  | .func goType => .error ("json: unsupported type: " ++ goType)
  | .encoded text => .ok (.raw text)
  | .failing err => .error err

/-- A struct field as `encoding/json` sees it: the key and the `omitempty`
option of its tag, whether its value is empty in the sense of `omitempty`
(a map of length 0, a nil interface), and its value encoded, or the error of
encoding it. -/
structure StructField where
  name : String
  omitEmpty : Bool
  isEmpty : Bool
  value : Except GoError JSON

/-- Model of `json.Marshal` on a struct (library code): the fields in
declaration order, one member each, skipping a field tagged `omitempty` whose
value is empty. The first field that cannot be encoded makes the whole call
return its error and no output; otherwise the result is the member list of the
JSON object. -/
def Marshal : List StructField → Except GoError (List (String × JSON))
  | [] => .ok []
  | f :: fields =>
    if f.omitEmpty ∧ f.isEmpty then Marshal fields
    else
      match f.value with
      | .error err => .error err
      | .ok v =>
        match Marshal fields with
        | .error err => .error err
        | .ok members => .ok ((f.name, v) :: members)

end json

namespace rest

/-- The struct `Response`. `Headers` is `none` for the nil map and the list of
its entries otherwise; `Data` and `MetaData` are `none` for the nil interface. -/
structure Response where
  Status : Int
  Headers : Option (List (String × String))
  Data : Option json.Any
  MetaData : Option json.Any
  deriving DecidableEq, Repr

/-- The fields of `Response` with their struct tags, as read by `encoding/json`. -/
def Response.fields (r : Response) : List json.StructField :=
  [ { name := "status"
      omitEmpty := false
      isEmpty := decide (r.Status = 0)
      value := .ok (.number r.Status) },
    { name := "headers"
      omitEmpty := true
      isEmpty := decide ((r.Headers.getD []).length = 0)
      value := match r.Headers with
        | none => .ok .null
        | some m => .ok (.object m) },
    { name := "data"
      omitEmpty := true
      isEmpty := r.Data.isNone
      value := match r.Data with
        | none => .ok .null
        | some v => json.marshalAny v },
    { name := "metaData"
      omitEmpty := true
      isEmpty := r.MetaData.isNone
      value := match r.MetaData with
        | none => .ok .null
        | some v => json.marshalAny v } ]

/-- Serialising a `Response` to JSON: the members of the object written, or the
error when a payload cannot be encoded. -/
def Response.Marshal (r : Response) : Except GoError (List (String × json.JSON)) :=
  json.Marshal r.fields

/-- The keys of the serialised `Response`; there are none when serialising
fails, as nothing is written then. -/
def Response.keys (r : Response) : List String :=
  match r.Marshal with
  | .ok members => members.map Prod.fst
  | .error _ => []

end rest

/-! ## Sample environments -/

/-- An environment in which every file opens and every flush succeeds. -/
def sampleEnv : Env :=
  { ToLower := fun s => String.mk (s.data.map Char.toLower)
    Sprint := fun vs => " ".intercalate (vs.map fun v =>
      match v with
      | .str s => s
      | .int n => toString n
      | .bool b => toString b)
    Sprintf := fun template _ => template
    sweetenFields := fun vs =>
      match vs with
      | [.str k, v] => [{ Key := k, Val := v }]
      | _ => []
    encoders := []
    OpenFile := fun _ => none
    SyncSinks := fun _ => none }

/-- An environment in which no file opens and every flush fails. -/
def brokenEnv : Env :=
  { sampleEnv with
    OpenFile := fun _ => some "permission denied"
    SyncSinks := fun _ => some "file already closed" }

/-- The engine logger that `NewLogger` builds from the default configuration. -/
def defaultSugar : zap.SugaredLogger :=
  { base :=
      { level := .InfoLevel
        development := false
        encoding := "json"
        encoderConfig := .production
        outputPaths := ["stdout"]
        errorOutputPaths := ["stderr"]
        context := [] } }

/-! ## Lemmas on the embedding -/

open zapcore utils

theorem unmarshalText_info : Level.unmarshalText "info" = some .InfoLevel := by
  decide

theorem unmarshalText_empty : Level.unmarshalText "" = some .InfoLevel := by
  decide

theorem parseLevel_info (env : Env) (cfg : Config) :
    parseLevel env { cfg with Level := "info" } = .InfoLevel := by
  simp [parseLevel, Level.UnmarshalText, unmarshalText_info]

theorem parseLevel_of_error (env : Env) (cfg : Config)
    (herr : (Level.UnmarshalText env.ToLower .InfoLevel cfg.Level).2 ≠ none) :
    parseLevel env cfg = .InfoLevel := by
  simp only [parseLevel]
  rw [if_pos herr]

theorem parseLevel_of_ok (env : Env) (cfg : Config) (L : Level)
    (hok : Level.UnmarshalText env.ToLower .InfoLevel cfg.Level = (L, none)) :
    parseLevel env cfg = L := by
  simp [parseLevel, hok]

theorem selectConfig_one (cfg : Config) : selectConfig [cfg] = cfg := by
  simp [selectConfig]

theorem Build_level (env : Env) (c : zap.Config) (b : zap.Logger)
    (hb : c.Build env = .ok b) :
    b = { level := c.Level
          development := c.Development
          encoding := c.Encoding
          encoderConfig := c.EncoderConfig
          outputPaths := c.OutputPaths
          errorOutputPaths := c.ErrorOutputPaths
          context := [] } := by
  unfold zap.Config.Build at hb
  split at hb
  · cases hb
  · split at hb
    · cases hb
    · split at hb
      · cases hb
      · injection hb with hb
        exact hb.symm

theorem NewLogger_returned (env : Env) (h h1 : Heap) (cfg : Config) (l : Logger)
    (hnew : NewLogger env h [cfg] = .returned (h1, l)) :
    ∃ b, (zapConfig env cfg).Build env = .ok b ∧
      h1 = h ++ [b.Sugar] ∧ l = { SugaredLogger := h.length } := by
  unfold NewLogger at hnew
  rw [selectConfig_one] at hnew
  cases hb : (zapConfig env cfg).Build env with
  | error err => simp [hb] at hnew
  | ok b =>
    simp only [hb, Heap.alloc] at hnew
    injection hnew with hnew
    injection hnew with h1eq leq
    exact ⟨b, rfl, h1eq.symm, leq.symm⟩

theorem NewLogger_get (env : Env) (h h1 : Heap) (cfg : Config) (l : Logger)
    (hnew : NewLogger env h [cfg] = .returned (h1, l)) :
    ∃ s : zap.SugaredLogger, h1[l.SugaredLogger]? = some s ∧
      s.base.level = parseLevel env cfg ∧ s.base.context = [] ∧
      s.base.encoding = cfg.Encoding ∧ s.base.outputPaths = cfg.OutputPaths := by
  obtain ⟨b, hb, rfl, rfl⟩ := NewLogger_returned env h h1 cfg l hnew
  refine ⟨b.Sugar, by simp, ?_⟩
  rw [Build_level env _ b hb]
  simp [zap.Logger.Sugar, zapConfig]

theorem invoke_eq_log (env : Env) (h : Heap) (l : Logger) (s : zap.SugaredLogger)
    (hs : h[l.SugaredLogger]? = some s) (m : Method) (template : String)
    (args : List Value) :
    l.invoke env h m template args =
      s.log env m.severity (m.template template) args := by
  cases m <;>
    simp [Logger.invoke, Logger.forward, hs, Method.severity, Method.template,
      Logger.Debug, Logger.Info, Logger.Warn, Logger.Error, Logger.Panic, Logger.Fatal,
      Logger.Debugf, Logger.Infof, Logger.Warnf, Logger.Errorf, Logger.Panicf,
      Logger.Fatalf, zap.SugaredLogger.Debug, zap.SugaredLogger.Info,
      zap.SugaredLogger.Warn, zap.SugaredLogger.Error, zap.SugaredLogger.Panic,
      zap.SugaredLogger.Fatal, zap.SugaredLogger.Debugf, zap.SugaredLogger.Infof,
      zap.SugaredLogger.Warnf, zap.SugaredLogger.Errorf, zap.SugaredLogger.Panicf,
      zap.SugaredLogger.Fatalf]

theorem log_records (env : Env) (s : zap.SugaredLogger) (lvl : Level)
    (template : String) (args : List Value) :
    (s.log env lvl template args).records =
      if s.base.level.Enabled lvl then
        [{ Level := lvl
           Message := zap.getMessage env template args
           Fields := s.base.context
           Encoding := s.base.encoding
           OutputPaths := s.base.outputPaths }]
      else [] := by
  unfold zap.SugaredLogger.log
  cases hE : s.base.level.Enabled lvl <;> cases lvl <;> simp [Level.toInt]

theorem log_outcome (env : Env) (s : zap.SugaredLogger) (m : Method)
    (template : String) (args : List Value) :
    (s.log env m.severity template args).outcome =
      match m.severity with
      | .PanicLevel => .panicked (zap.getMessage env template args)
      | .FatalLevel => .exited 1
      | _ => .returned () := by
  unfold zap.SugaredLogger.log
  cases hE : s.base.level.Enabled m.severity <;> cases m <;>
    simp [Level.toInt, Method.severity] at hE ⊢

theorem NewLogger_nil (env : Env) (h : Heap) :
    NewLogger env h [] =
      .returned (h ++ [defaultSugar], { SugaredLogger := h.length }) := by
  simp [NewLogger, selectConfig, defaultConfig, zapConfig, parseLevel,
    Level.UnmarshalText, unmarshalText_info, zap.Config.Build, zap.newEncoder,
    zap.Open, zap.openSink, Heap.alloc, zap.Logger.Sugar, defaultSugar]

theorem invoke_congr (env : Env) (h h1 : Heap) (l : Logger)
    (hget : h1[l.SugaredLogger]? = h[l.SugaredLogger]?) (m : Method)
    (template : String) (args : List Value) :
    l.invoke env h1 m template args = l.invoke env h m template args := by
  cases m <;>
    simp [Logger.invoke, Logger.forward, hget, Logger.Debug, Logger.Info,
      Logger.Warn, Logger.Error, Logger.Panic, Logger.Fatal, Logger.Debugf,
      Logger.Infof, Logger.Warnf, Logger.Errorf, Logger.Panicf, Logger.Fatalf]

theorem With_heap (env : Env) (h : Heap) (p : Logger) (args : List Value) :
    (p.With env h args).1 = h ∨
      ∃ s, (p.With env h args).1 = h ++ [s] := by
  unfold Logger.With
  cases hp : h[p.SugaredLogger]? with
  | none => left; simp
  | some s => right; exact ⟨s.With env args, by simp [Heap.alloc]⟩

theorem With_get (env : Env) (h : Heap) (p : Logger) (args : List Value) (q : Nat)
    (hq : q < h.length) : (p.With env h args).1[q]? = h[q]? := by
  rcases With_heap env h p args with heq | ⟨s, heq⟩
  · rw [heq]
  · rw [heq, List.getElem?_append_left hq]

theorem With_returned (env : Env) (h : Heap) (p : Logger) (s : zap.SugaredLogger)
    (hs : h[p.SugaredLogger]? = some s) (args : List Value) :
    p.With env h args =
      (h ++ [s.With env args], .returned { SugaredLogger := h.length }) := by
  simp [Logger.With, hs, Heap.alloc]

theorem Any_encoding_cases (o : Option json.Any) :
    o = none ∨ (∃ v j, o = some v ∧ json.marshalAny v = .ok j) ∨
      ∃ v e, o = some v ∧ json.marshalAny v = .error e := by
  rcases o with _ | v
  · exact Or.inl rfl
  · cases hv : json.marshalAny v with
    | error e => exact Or.inr (Or.inr ⟨v, e, rfl, hv⟩)
    | ok j => exact Or.inr (Or.inl ⟨v, j, rfl, hv⟩)

theorem Response_Marshal_data_error (st : Int) (hd : Option (List (String × String)))
    (md : Option json.Any) (v : json.Any) (e : GoError)
    (hv : json.marshalAny v = .error e) :
    rest.Response.Marshal
      { Status := st, Headers := hd, Data := some v, MetaData := md } = .error e := by
  rcases hd with _ | _ | ⟨x, xs⟩ <;>
    simp [rest.Response.Marshal, rest.Response.fields, json.Marshal, hv]

theorem Response_Marshal_metaData_error (st : Int)
    (hd : Option (List (String × String))) (d : Option json.Any) (w : json.Any)
    (e : GoError) (hw : json.marshalAny w = .error e)
    (hdata : ∀ v, d = some v → ∃ j, json.marshalAny v = .ok j) :
    rest.Response.Marshal
      { Status := st, Headers := hd, Data := d, MetaData := some w } = .error e := by
  rcases d with _ | v
  · rcases hd with _ | _ | ⟨x, xs⟩ <;>
      simp [rest.Response.Marshal, rest.Response.fields, json.Marshal, hw]
  · obtain ⟨j, hj⟩ := hdata v rfl
    rcases hd with _ | _ | ⟨x, xs⟩ <;>
      simp [rest.Response.Marshal, rest.Response.fields, json.Marshal, hw, hj]

theorem Response_Marshal_ok (st : Int) (hd : Option (List (String × String)))
    (d md : Option json.Any) (dj mj : List (String × json.JSON))
    (hdata : (d = none ∧ dj = []) ∨
      ∃ v j, d = some v ∧ json.marshalAny v = .ok j ∧ dj = [("data", j)])
    (hmeta : (md = none ∧ mj = []) ∨
      ∃ w k, md = some w ∧ json.marshalAny w = .ok k ∧ mj = [("metaData", k)]) :
    rest.Response.Marshal { Status := st, Headers := hd, Data := d, MetaData := md } =
      .ok (("status", json.JSON.number st) ::
        ((match hd with
          | some (x :: xs) => [("headers", json.JSON.object (x :: xs))]
          | _ => []) ++ dj ++ mj)) := by
  rcases hdata with ⟨rfl, rfl⟩ | ⟨v, j, rfl, hv, rfl⟩ <;>
    rcases hmeta with ⟨rfl, rfl⟩ | ⟨w, k, rfl, hw, rfl⟩ <;>
    rcases hd with _ | _ | ⟨x, xs⟩ <;>
    simp [rest.Response.Marshal, rest.Response.fields, json.Marshal, *]

theorem Response_Marshal_cases (r : rest.Response) :
    (∃ v e, r.Data = some v ∧ json.marshalAny v = .error e ∧ r.Marshal = .error e) ∨
    ((∀ a, r.Data = some a → ∃ j, json.marshalAny a = .ok j) ∧
      ∃ w e, r.MetaData = some w ∧ json.marshalAny w = .error e ∧
        r.Marshal = .error e) ∨
    ∃ dj mj,
      ((r.Data = none ∧ dj = []) ∨
        ∃ v j, r.Data = some v ∧ json.marshalAny v = .ok j ∧ dj = [("data", j)]) ∧
      ((r.MetaData = none ∧ mj = []) ∨
        ∃ w k, r.MetaData = some w ∧ json.marshalAny w = .ok k ∧
          mj = [("metaData", k)]) ∧
      r.Marshal = .ok (("status", json.JSON.number r.Status) ::
        ((match r.Headers with
          | some (x :: xs) => [("headers", json.JSON.object (x :: xs))]
          | _ => []) ++ dj ++ mj)) := by
  obtain ⟨st, hd, d, md⟩ := r
  have hdata : (∃ v e, d = some v ∧ json.marshalAny v = .error e) ∨
      ∃ dj, (d = none ∧ dj = []) ∨
        ∃ v j, d = some v ∧ json.marshalAny v = .ok j ∧ dj = [("data", j)] := by
    rcases Any_encoding_cases d with rfl | ⟨v, j, rfl, hv⟩ | ⟨v, e, rfl, hv⟩
    · exact Or.inr ⟨[], Or.inl ⟨rfl, rfl⟩⟩
    · exact Or.inr ⟨_, Or.inr ⟨v, j, rfl, hv, rfl⟩⟩
    · exact Or.inl ⟨v, e, rfl, hv⟩
  have hmeta : (∃ w e, md = some w ∧ json.marshalAny w = .error e) ∨
      ∃ mj, (md = none ∧ mj = []) ∨
        ∃ w k, md = some w ∧ json.marshalAny w = .ok k ∧ mj = [("metaData", k)] := by
    rcases Any_encoding_cases md with rfl | ⟨w, k, rfl, hw⟩ | ⟨w, e, rfl, hw⟩
    · exact Or.inr ⟨[], Or.inl ⟨rfl, rfl⟩⟩
    · exact Or.inr ⟨_, Or.inr ⟨w, k, rfl, hw, rfl⟩⟩
    · exact Or.inl ⟨w, e, rfl, hw⟩
  rcases hdata with ⟨v, e, rfl, hv⟩ | ⟨dj, hdj⟩
  · exact Or.inl ⟨v, e, rfl, hv, Response_Marshal_data_error st hd md v e hv⟩
  · rcases hmeta with ⟨w, e, rfl, hw⟩ | ⟨mj, hmj⟩
    · refine Or.inr (Or.inl ⟨?_, w, e, rfl, hw, ?_⟩)
      · intro a ha
        rcases hdj with ⟨h0, -⟩ | ⟨v, j, h1, hv, -⟩
        · rw [h0] at ha
          cases ha
        · rw [h1] at ha
          cases ha
          exact ⟨j, hv⟩
      · refine Response_Marshal_metaData_error st hd d w e hw ?_
        intro a ha
        rcases hdj with ⟨h0, -⟩ | ⟨v, j, h1, hv, -⟩
        · rw [h0] at ha
          cases ha
        · rw [h1] at ha
          cases ha
          exact ⟨j, hv⟩
    · exact Or.inr (Or.inr ⟨dj, mj, hdj, hmj,
        Response_Marshal_ok st hd d md dj mj hdj hmj⟩)

/-! ## Construction -/

/-- C1: `NewLogger` called with no configuration argument is `NewLogger` called
with `defaultConfig()`: the configuration it uses is Level "info", Development
false, Encoding "json", OutputPaths ["stdout"], ErrorOutputPaths ["stderr"], and
the engine logger it builds and returns has exactly these settings. -/
theorem NewLogger_no_argument (env : Env) (h : Heap) :
    NewLogger env h [] = NewLogger env h [defaultConfig] ∧
    selectConfig [] =
      { Level := "info"
        Development := false
        Encoding := "json"
        OutputPaths := ["stdout"]
        ErrorOutputPaths := ["stderr"] } ∧
    NewLogger env h [] =
      .returned (h ++ [defaultSugar], { SugaredLogger := h.length }) := by
  refine ⟨?_, ?_, ?_⟩
  · simp [NewLogger, selectConfig]
  · simp [selectConfig, defaultConfig]
  · exact NewLogger_nil env h

/-- C2: when the engine cannot parse the level text of a configuration,
`NewLogger` does exactly what it does for the same configuration with Level
"info" (so the level is no cause of failure), and on the logger it returns
every logging method but Debug and Debugf writes one record, while Debug and
Debugf write none. -/
theorem NewLogger_unparseable_level (env : Env) (h : Heap) (cfg : Config)
    (herr : (Level.UnmarshalText env.ToLower .InfoLevel cfg.Level).2 ≠ none) :
    NewLogger env h [cfg] = NewLogger env h [{ cfg with Level := "info" }] ∧
    parseLevel env cfg = .InfoLevel ∧
    ∀ h1 l, NewLogger env h [cfg] = .returned (h1, l) →
      ∀ (m : Method) (template : String) (args : List Value),
        (l.invoke env h1 m template args).records.length =
          if m.severity = .DebugLevel then 0 else 1 := by
  have hlvl := parseLevel_of_error env cfg herr
  refine ⟨?_, hlvl, ?_⟩
  · simp only [NewLogger, selectConfig_one, zapConfig, hlvl, parseLevel_info]
  · intro h1 l hnew m template args
    obtain ⟨s, hs, hl, -, -, -⟩ := NewLogger_get env h h1 cfg l hnew
    rw [invoke_eq_log env h1 l s hs, log_records, hl, hlvl]
    cases m <;> simp [Method.severity, Level.Enabled, Level.toInt]

/-- Witness of C2 at the level text "verbose". -/
theorem NewLogger_unparseable_level_witness :
    (Level.UnmarshalText sampleEnv.ToLower .InfoLevel "verbose").2 ≠ none ∧
    NewLogger sampleEnv [] [{ defaultConfig with Level := "verbose" }] =
      .returned ([defaultSugar], { SugaredLogger := 0 }) ∧
    (Logger.invoke sampleEnv [defaultSugar] { SugaredLogger := 0 } .Warnf "%d left"
      [.int 3]).records.length = 1 ∧
    (Logger.invoke sampleEnv [defaultSugar] { SugaredLogger := 0 } .Debug ""
      [.str "details"]).records.length = 0 := by
  have hw := NewLogger_unparseable_level sampleEnv []
    { defaultConfig with Level := "verbose" } (by decide)
  have hnew : NewLogger sampleEnv [] [{ defaultConfig with Level := "verbose" }] =
      .returned ([defaultSugar], { SugaredLogger := 0 }) := by decide
  exact ⟨by decide, hnew, hw.2.2 _ _ hnew .Warnf "%d left" [.int 3],
    hw.2.2 _ _ hnew .Debug "" [.str "details"]⟩

/-! ## Logging calls -/

/-- C3, as the claim states it, fails: on the logger built from the default
configuration a call of `Debug` writes no record. -/
theorem Debug_on_default_logger_writes_nothing :
    NewLogger sampleEnv [] [defaultConfig] =
      .returned ([defaultSugar], { SugaredLogger := 0 }) ∧
    (Logger.Debug sampleEnv [defaultSugar] { SugaredLogger := 0 }
      [.str "details"]).records = [] ∧
    (Logger.Debug sampleEnv [defaultSugar] { SugaredLogger := 0 }
      [.str "details"]).records.length ≠ 1 := by
  decide

/-- C3, amended: on a logger that `NewLogger` returned for a configuration,
a call of any logging method writes exactly one record, tagged with the
severity the method is named after, when that severity is not below the
configured level, and no record otherwise. No call returns an error value: the
Debug, Info, Warn and Error methods return, the Panic methods panic with the
message and the Fatal methods exit, after the record. -/
theorem leveled_call_records (env : Env) (h h1 : Heap) (cfg : Config) (l : Logger)
    (hnew : NewLogger env h [cfg] = .returned (h1, l))
    (m : Method) (template : String) (args : List Value) :
    (l.invoke env h1 m template args).records =
      (if (parseLevel env cfg).toInt ≤ m.severity.toInt then
        [{ Level := m.severity
           Message := zap.getMessage env (m.template template) args
           Fields := []
           Encoding := cfg.Encoding
           OutputPaths := cfg.OutputPaths }]
      else []) ∧
    (l.invoke env h1 m template args).outcome =
      (match m.severity with
      | .PanicLevel => .panicked (zap.getMessage env (m.template template) args)
      | .FatalLevel => .exited 1
      | _ => .returned ()) := by
  obtain ⟨s, hs, hl, hc, he, ho⟩ := NewLogger_get env h h1 cfg l hnew
  rw [invoke_eq_log env h1 l s hs, log_records, log_outcome, hl, hc, he, ho]
  simp [Level.Enabled]

/-- Witness of the amended C3: `Errorf` on a logger of level "warn". -/
theorem leveled_call_records_witness :
    NewLogger sampleEnv [] [{ defaultConfig with Level := "warn" }] =
      .returned ([{ base := { defaultSugar.base with level := .WarnLevel } }],
        { SugaredLogger := 0 }) ∧
    (Logger.invoke sampleEnv [{ base := { defaultSugar.base with level := .WarnLevel } }]
      { SugaredLogger := 0 } .Errorf "disk full" [.int 1]).records =
      [{ Level := .ErrorLevel
         Message := "disk full"
         Fields := []
         Encoding := "json"
         OutputPaths := ["stdout"] }] := by
  have hnew : NewLogger sampleEnv [] [{ defaultConfig with Level := "warn" }] =
      .returned ([{ base := { defaultSugar.base with level := .WarnLevel } }],
        { SugaredLogger := 0 }) := by decide
  have hw := (leveled_call_records sampleEnv [] _ _ _ hnew .Errorf "disk full"
    [.int 1]).1
  refine ⟨hnew, hw.trans ?_⟩
  decide

/-- C4: a logger built with a level text that parses to `L` writes a record
for a logging call of severity `S` if and only if `S` is not below `L` in the
order debug < info < warn < error < panic < fatal; and on the logger that
`NewLogger()` returns, `Info("started")` writes exactly one record, at info
level, to standard out, and `Debug("details")` writes nothing. -/
theorem threshold_filters_records (env : Env) (h : Heap) :
    (∀ (cfg : Config) (L : Level) (h1 : Heap) (l : Logger),
      Level.UnmarshalText env.ToLower .InfoLevel cfg.Level = (L, none) →
      NewLogger env h [cfg] = .returned (h1, l) →
      ∀ (m : Method) (template : String) (args : List Value),
        ((l.invoke env h1 m template args).records.length = 1 ↔
          L.toInt ≤ m.severity.toInt) ∧
        ((l.invoke env h1 m template args).records = [] ↔
          m.severity.toInt < L.toInt)) ∧
    (Level.DebugLevel.toInt < Level.InfoLevel.toInt ∧
      Level.InfoLevel.toInt < Level.WarnLevel.toInt ∧
      Level.WarnLevel.toInt < Level.ErrorLevel.toInt ∧
      Level.ErrorLevel.toInt < Level.PanicLevel.toInt ∧
      Level.PanicLevel.toInt < Level.FatalLevel.toInt) ∧
    (∃ h1 l, NewLogger env h [] = .returned (h1, l) ∧
      (l.Info env h1 [.str "started"]).records =
        [{ Level := .InfoLevel
           Message := "started"
           Fields := []
           Encoding := "json"
           OutputPaths := ["stdout"] }] ∧
      (l.Info env h1 [.str "started"]).outcome = .returned () ∧
      (l.Debug env h1 [.str "details"]).records = [] ∧
      (l.Debug env h1 [.str "details"]).outcome = .returned ()) := by
  refine ⟨?_, by decide, ?_⟩
  · intro cfg L h1 l hL hnew m template args
    obtain ⟨s, hs, hl, -, -, -⟩ := NewLogger_get env h h1 cfg l hnew
    rw [invoke_eq_log env h1 l s hs, log_records, hl, parseLevel_of_ok env cfg L hL]
    by_cases hle : L.toInt ≤ m.severity.toInt
    · simp [Level.Enabled, hle]
    · simp [Level.Enabled, hle]
      omega
  · refine ⟨_, _, NewLogger_nil env h, ?_⟩
    simp [Logger.Info, Logger.Debug, Logger.forward, zap.SugaredLogger.Info,
      zap.SugaredLogger.Debug, zap.SugaredLogger.log, defaultSugar, Level.Enabled,
      Level.toInt, zap.getMessage]

/-! ## Derived loggers -/

/-- C5: `With` does not mutate its receiver, nor any other logger: whatever the
receiver `p` and the arguments, every engine logger that existed before the
call is the same after it, every logging call on an existing logger does after
the call what it did before, and the records logged on `p` after the call carry
the contextual fields `p` had before it, not those given to the child. -/
theorem With_leaves_receiver (env : Env) (h : Heap) (p : Logger) (args : List Value) :
    (∀ q, q < h.length → (p.With env h args).1[q]? = h[q]?) ∧
    (p.With env h args).1[p.SugaredLogger]? = h[p.SugaredLogger]? ∧
    (∀ (m : Method) (template : String) (a : List Value),
      p.invoke env (p.With env h args).1 m template a =
        p.invoke env h m template a) ∧
    (∀ s, h[p.SugaredLogger]? = some s →
      ∀ (m : Method) (template : String) (a : List Value),
        ∀ e ∈ (p.invoke env (p.With env h args).1 m template a).records,
          e.Fields = s.base.context) := by
  have hp : (p.With env h args).1[p.SugaredLogger]? = h[p.SugaredLogger]? := by
    by_cases hlt : p.SugaredLogger < h.length
    · exact With_get env h p args _ hlt
    · have hnone : h[p.SugaredLogger]? = none :=
        List.getElem?_eq_none (Nat.le_of_not_lt hlt)
      simp [Logger.With, hnone]
  refine ⟨fun q hq => With_get env h p args q hq, hp, ?_, ?_⟩
  · intro m template a
    exact invoke_congr env h _ p hp m template a
  · intro s hs m template a e he
    rw [invoke_congr env h _ p hp, invoke_eq_log env h p s hs, log_records] at he
    split at he
    · simp at he
      rw [he]
    · simp at he

/-- C6: for a logger `p` whose inherited fields are `F`, the logger
`p.With(A).With(B)` is a new logger with the level, the encoding and the sinks
of `p`, and each record it writes carries `F` followed by the fields of `A`
followed by the fields of `B`. -/
theorem With_accumulates (env : Env) (h : Heap) (p : Logger) (s : zap.SugaredLogger)
    (hs : h[p.SugaredLogger]? = some s) (A B : List Value) :
    ∃ h1 c1 h2 c2,
      p.With env h A = (h1, .returned c1) ∧
      c1.With env h1 B = (h2, .returned c2) ∧
      c2 ≠ p ∧
      h2[c2.SugaredLogger]? = some
        { base := { s.base with
            context := s.base.context ++ env.sweetenFields A ++ env.sweetenFields B } } ∧
      ∀ (m : Method) (template : String) (a : List Value),
        (c2.invoke env h2 m template a).records =
          if s.base.level.Enabled m.severity then
            [{ Level := m.severity
               Message := zap.getMessage env (m.template template) a
               Fields := s.base.context ++ env.sweetenFields A ++ env.sweetenFields B
               Encoding := s.base.encoding
               OutputPaths := s.base.outputPaths }]
          else [] := by
  have hlt : p.SugaredLogger < h.length := by
    by_contra hge
    rw [List.getElem?_eq_none (Nat.le_of_not_lt hge)] at hs
    cases hs
  have h1s : (h ++ [s.With env A])[h.length]? = some (s.With env A) := by simp
  have h2s : ((h ++ [s.With env A]) ++ [(s.With env A).With env B])[
      (h ++ [s.With env A]).length]? = some ((s.With env A).With env B) :=
    List.getElem?_concat_length _ _
  refine ⟨_, _, _, _, With_returned env h p s hs A,
    With_returned env _ { SugaredLogger := h.length } _ h1s B, ?_, ?_, ?_⟩
  · intro heq
    rw [← heq] at hlt
    simp at hlt
  · rw [h2s]
    simp [zap.SugaredLogger.With, zap.Logger.With]
  · intro m template a
    rw [invoke_eq_log env _ _ _ h2s, log_records]
    simp [zap.SugaredLogger.With, zap.Logger.With]

/-- Witness of C6: two fields attached in turn to the default logger. -/
theorem With_accumulates_witness :
    ∃ h1 c1 h2 c2,
      Logger.With sampleEnv [defaultSugar] { SugaredLogger := 0 }
        [.str "service", .str "api"] = (h1, .returned c1) ∧
      c1.With sampleEnv h1 [.str "request", .int 7] = (h2, .returned c2) ∧
      c2 ≠ { SugaredLogger := 0 } ∧
      h2[c2.SugaredLogger]? = some
        { base := { defaultSugar.base with
            context := [{ Key := "service", Val := .str "api" },
              { Key := "request", Val := .int 7 }] } } ∧
      (c2.Info sampleEnv h2 [.str "started"]).records =
        [{ Level := .InfoLevel
           Message := "started"
           Fields := [{ Key := "service", Val := .str "api" },
             { Key := "request", Val := .int 7 }]
           Encoding := "json"
           OutputPaths := ["stdout"] }] := by
  obtain ⟨h1, c1, h2, c2, hA, hB, hne, hget, hrec⟩ :=
    With_accumulates sampleEnv [defaultSugar] { SugaredLogger := 0 } defaultSugar
      (by decide) [.str "service", .str "api"] [.str "request", .int 7]
  refine ⟨h1, c1, h2, c2, hA, hB, hne, hget, ?_⟩
  have hi := hrec .Info "" [.str "started"]
  simpa [Logger.invoke, defaultSugar, Level.Enabled, Level.toInt, Method.severity,
    Method.template, zap.getMessage, sampleEnv] using hi

/-! ## Configurations the engine rejects -/

/-- C7, as the claim states it, fails: `NewLogger` given the zero-value
`Config` returns no logger, it panics with the engine's error for the empty
encoder name. -/
theorem NewLogger_zero_config_panics :
    NewLogger sampleEnv [] [zeroConfig] = .panicked "no encoder name specified" := by
  decide

/-- C7, amended: `NewLogger` given the zero-value `Config` supplies a default
for the level only (the empty level text gives info). The empty encoding and
the empty sink lists are handed to the engine as they are, the engine rejects
the empty encoder name, and `NewLogger` panics with that error. -/
theorem NewLogger_zero_config (env : Env) (h : Heap) :
    zapConfig env zeroConfig =
      { Level := .InfoLevel
        Development := false
        Encoding := ""
        EncoderConfig := .production
        OutputPaths := []
        ErrorOutputPaths := [] } ∧
    NewLogger env h [zeroConfig] = .panicked zap.errNoEncoderNameSpecified := by
  have hz : zapConfig env zeroConfig =
      { Level := .InfoLevel
        Development := false
        Encoding := ""
        EncoderConfig := .production
        OutputPaths := []
        ErrorOutputPaths := [] } := by
    simp [zapConfig, zeroConfig, parseLevel, Level.UnmarshalText, unmarshalText_empty]
  refine ⟨hz, ?_⟩
  simp [NewLogger, selectConfig_one, hz, zap.Config.Build, zap.newEncoder]

/-- C8, as the claim states it, fails: for an encoding the engine does not
know, `NewLogger` raises a panic that carries the engine's error, which a
caller can recover; it does not exit the process. -/
theorem NewLogger_unknown_encoding_panics :
    NewLogger sampleEnv [] [{ defaultConfig with Encoding := "xml" }] =
      .panicked "no encoder registered for name xml" ∧
    ∀ code, NewLogger sampleEnv [] [{ defaultConfig with Encoding := "xml" }] ≠
      .exited code := by
  have hp : NewLogger sampleEnv [] [{ defaultConfig with Encoding := "xml" }] =
      .panicked "no encoder registered for name xml" := by decide
  refine ⟨hp, ?_⟩
  intro code hex
  rw [hp] at hex
  cases hex

/-- C8, amended: whenever building the engine from the supplied configuration
fails, `NewLogger` panics with the error of the engine, unchanged, and returns
neither a logger nor an error value. -/
theorem NewLogger_build_error (env : Env) (h : Heap) (cfg : Config) (err : GoError)
    (hb : (zapConfig env cfg).Build env = .error err) :
    NewLogger env h [cfg] = .panicked err ∧
    ∀ r, NewLogger env h [cfg] ≠ .returned r := by
  have hp : NewLogger env h [cfg] = .panicked err := by
    simp [NewLogger, selectConfig_one, hb]
  refine ⟨hp, ?_⟩
  intro r hr
  rw [hp] at hr
  cases hr

/-- Witness of the amended C8: an output sink that cannot be opened. -/
theorem NewLogger_build_error_witness :
    (zapConfig brokenEnv { defaultConfig with OutputPaths := ["/var/log/app.log"] }).Build
      brokenEnv = .error "open sink /var/log/app.log: permission denied" ∧
    NewLogger brokenEnv [] [{ defaultConfig with OutputPaths := ["/var/log/app.log"] }] =
      .panicked "open sink /var/log/app.log: permission denied" :=
  ⟨rfl,
    (NewLogger_build_error brokenEnv []
      { defaultConfig with OutputPaths := ["/var/log/app.log"] }
      "open sink /var/log/app.log: permission denied" rfl).1⟩

/-! ## Flushing -/

/-- C10: on a logger `l` whose engine logger is `s`, `Sync` returns, without a
panic or an exit, what flushing the engine returns: nil when the flush
succeeds, and the engine's error, unchanged, exactly when the flush fails. -/
theorem Sync_returns_engine_error (env : Env) (h : Heap) (l : Logger)
    (s : zap.SugaredLogger) (hs : h[l.SugaredLogger]? = some s) :
    l.Sync env h = .returned (env.SyncSinks s.base.outputPaths) ∧
    (l.Sync env h = .returned none ↔ env.SyncSinks s.base.outputPaths = none) ∧
    (∀ err, l.Sync env h = .returned (some err) ↔
      env.SyncSinks s.base.outputPaths = some err) ∧
    (∀ v, l.Sync env h ≠ .panicked v) ∧
    (∀ code, l.Sync env h ≠ .exited code) := by
  have hsync : l.Sync env h = .returned (env.SyncSinks s.base.outputPaths) := by
    simp [Logger.Sync, hs, zap.SugaredLogger.Sync]
  refine ⟨hsync, ?_, ?_, ?_, ?_⟩
  · rw [hsync]
    constructor
    · intro heq
      injection heq
    · intro heq
      rw [heq]
  · intro err
    rw [hsync]
    constructor
    · intro heq
      injection heq
    · intro heq
      rw [heq]
  · intro v hv
    rw [hsync] at hv
    cases hv
  · intro code hc
    rw [hsync] at hc
    cases hc

/-- Witness of C10: a flush that succeeds, and one that fails. -/
theorem Sync_returns_engine_error_witness :
    Logger.Sync sampleEnv [defaultSugar] { SugaredLogger := 0 } = .returned none ∧
    Logger.Sync brokenEnv [defaultSugar] { SugaredLogger := 0 } =
      .returned (some "file already closed") :=
  ⟨(Sync_returns_engine_error sampleEnv [defaultSugar] { SugaredLogger := 0 }
      defaultSugar (by decide)).1,
    (Sync_returns_engine_error brokenEnv [defaultSugar] { SugaredLogger := 0 }
      defaultSugar (by decide)).1⟩

/-! ## The response envelope -/

open rest json

/-- C9, as the claim states it, fails: a `Response` whose `Headers` has been
set to an empty map is serialised without the key "headers", and a `Response`
whose `Data` has been set to NaN is not serialised at all, so not even the key
"status" is written. -/
theorem Response_omits_empty_headers_and_can_fail :
    Response.Marshal { Status := 200, Headers := some [], Data := none, MetaData := none } =
      .ok [("status", .number 200)] ∧
    "headers" ∉
      Response.keys { Status := 200, Headers := some [], Data := none, MetaData := none } ∧
    Response.Marshal { Status := 200, Headers := none, Data := some .nan, MetaData := none } =
      .error "json: unsupported value: NaN" ∧
    "status" ∉
      Response.keys { Status := 200, Headers := none, Data := some .nan, MetaData := none } := by
  refine ⟨rfl, ?_, rfl, ?_⟩ <;> decide

/-- C9, amended: serialising a `Response` with only `Status` set writes the key
"status" and no other. Serialising fails, and writes nothing, exactly when
`Data` or `MetaData` holds a value that cannot be encoded, with the error of
that value (that of `Data` first). Whenever it succeeds, the key "status" is
written; the key "headers" is written, with the given map, exactly when
`Headers` is a map that is not empty; the keys "data" and "metaData" are
written, with the given value encoded, exactly when `Data` and `MetaData` are
not nil. -/
theorem Response_Marshal_keys (r : Response) :
    (r.Headers = none → r.Data = none → r.MetaData = none →
      r.Marshal = .ok [("status", JSON.number r.Status)]) ∧
    ((∃ err, r.Marshal = .error err) ↔
      ∃ v err, (r.Data = some v ∨ r.MetaData = some v) ∧ marshalAny v = .error err) ∧
    (∀ v err, r.Data = some v → marshalAny v = .error err →
      r.Marshal = .error err ∧ r.keys = []) ∧
    (∀ v err, r.MetaData = some v → marshalAny v = .error err →
      (∀ d, r.Data = some d → ∃ j, marshalAny d = .ok j) →
      r.Marshal = .error err ∧ r.keys = []) ∧
    ((∀ v, r.Data = some v → ∃ j, marshalAny v = .ok j) →
      (∀ v, r.MetaData = some v → ∃ j, marshalAny v = .ok j) →
      ∃ members, r.Marshal = .ok members) ∧
    (∀ members, r.Marshal = .ok members →
      r.keys = members.map Prod.fst ∧
      ("status", JSON.number r.Status) ∈ members ∧
      (∀ m, r.Headers = some m → m ≠ [] → ("headers", JSON.object m) ∈ members) ∧
      (∀ v, r.Data = some v →
        ∃ j, marshalAny v = .ok j ∧ ("data", j) ∈ members) ∧
      (∀ v, r.MetaData = some v →
        ∃ j, marshalAny v = .ok j ∧ ("metaData", j) ∈ members) ∧
      ("status" ∈ members.map Prod.fst) ∧
      ("headers" ∈ members.map Prod.fst ↔ ∃ m, r.Headers = some m ∧ m ≠ []) ∧
      ("data" ∈ members.map Prod.fst ↔ r.Data ≠ none) ∧
      ("metaData" ∈ members.map Prod.fst ↔ r.MetaData ≠ none)) := by
  rcases Response_Marshal_cases r with ⟨v, e, hd1, hv, hm⟩ |
    ⟨hall, w, e, hw1, hw, hm⟩ | ⟨dj, mj, hdj, hmj, hm⟩
  · -- `Data` cannot be encoded
    refine ⟨?_, ?_, ?_, ?_, ?_, ?_⟩
    · intro _ h
      rw [hd1] at h
      cases h
    · exact ⟨fun _ => ⟨v, e, Or.inl hd1, hv⟩, fun _ => ⟨e, hm⟩⟩
    · intro v1 err h1 herr
      rw [hd1] at h1
      cases h1
      rw [hv] at herr
      cases herr
      exact ⟨hm, by simp [Response.keys, hm]⟩
    · intro _ _ _ _ hall
      obtain ⟨j, hj⟩ := hall v hd1
      rw [hv] at hj
      cases hj
    · intro hall _
      obtain ⟨j, hj⟩ := hall v hd1
      rw [hv] at hj
      cases hj
    · intro members hok
      rw [hm] at hok
      cases hok
  · -- `MetaData` cannot be encoded
    refine ⟨?_, ?_, ?_, ?_, ?_, ?_⟩
    · intro _ _ h
      rw [hw1] at h
      cases h
    · exact ⟨fun _ => ⟨w, e, Or.inr hw1, hw⟩, fun _ => ⟨e, hm⟩⟩
    · intro v1 err h1 herr
      obtain ⟨j, hj⟩ := hall v1 h1
      rw [herr] at hj
      cases hj
    · intro w1 err h1 herr _
      rw [hw1] at h1
      cases h1
      rw [hw] at herr
      cases herr
      exact ⟨hm, by simp [Response.keys, hm]⟩
    · intro _ hallm
      obtain ⟨j, hj⟩ := hallm w hw1
      rw [hw] at hj
      cases hj
    · intro members hok
      rw [hm] at hok
      cases hok
  · -- both payloads are nil or can be encoded
    obtain ⟨st, hd, d, md⟩ := r
    rcases hdj with ⟨rfl, rfl⟩ | ⟨v, j, rfl, hv, rfl⟩ <;>
      rcases hmj with ⟨rfl, rfl⟩ | ⟨w, k, rfl, hw, rfl⟩ <;>
      rcases hd with _ | _ | ⟨x, xs⟩ <;>
      simp [Response.keys, hm, *] <;>
      aesop

/-- Witness of the amended C9: a `Response` with every field set, the metadata
to a typed nil pointer. -/
theorem Response_Marshal_keys_witness :
    Response.Marshal
      { Status := 200
        Headers := some [("Content-Type", "application/json")]
        Data := some (.val (.str "ok"))
        MetaData := some .nilPointer } =
      .ok [("status", .number 200),
        ("headers", .object [("Content-Type", "application/json")]),
        ("data", .string "ok"),
        ("metaData", .null)] ∧
    ("headers", JSON.object [("Content-Type", "application/json")]) ∈
      [("status", JSON.number 200),
        ("headers", JSON.object [("Content-Type", "application/json")]),
        ("data", JSON.string "ok"),
        ("metaData", JSON.null)] ∧
    ∃ j, marshalAny (.val (.str "ok")) = .ok j ∧
      ("data", j) ∈
        [("status", JSON.number 200),
          ("headers", JSON.object [("Content-Type", "application/json")]),
          ("data", JSON.string "ok"),
          ("metaData", JSON.null)] := by
  have hok : Response.Marshal
      { Status := 200
        Headers := some [("Content-Type", "application/json")]
        Data := some (.val (.str "ok"))
        MetaData := some .nilPointer } =
      .ok [("status", .number 200),
        ("headers", .object [("Content-Type", "application/json")]),
        ("data", .string "ok"),
        ("metaData", .null)] := rfl
  have hw := (Response_Marshal_keys _).2.2.2.2.2 _ hok
  exact ⟨hok, hw.2.2.1 _ rfl (by simp), hw.2.2.2.1 _ rfl⟩

end DigitalDash
